import Mathlib

/-!
Verification of the warlot-golang-sdk request execution engine
==============================================================

A shallow embedding, in Lean 4, of the core of the `warlot` Go package:

* the JSON tokenizer / value parser used to model `encoding/json`'s
  `Decoder.Token`, `Decoder.More`, `Decoder.Decode` and `json.Unmarshal`
  (the standard-library collaborators of the code under verification);
* `parseAPIError`, `normalizeBackoff`, `normalizeRetries`, `nextBackoff`
  and the jittered sleep duration from `retry.go` / helpers;
* the buffered executor `Client.doJSON` and the streaming executor
  `Client.doRequest` (request/retry loop), with the HTTP transport and
  the per-attempt pseudo-random jitter value supplied by an environment;
* `RowScanner.Next` / `Err` / `Close` and the scanner construction of
  `ExecSQLStream` from `stream.go`;
* `Pager.Next` from `pager.go`, with `Project.Browse` supplied as a
  function argument.

Durations are modelled in nanoseconds as `Nat` (Go `time.Duration` is an
integer nanosecond count; the configuration boundary uses `Int` because Go
permits negative configured durations, which the normalizers coerce).  The
jitter factor `0.5 + 0.5*randFloat64()` is modelled exactly as the rational
`(1000 + j) / 2000` with `j = n % 1000`, evaluated with floor division;
`float64` rounding of the Go original is abstracted away (it can perturb the
product by at most one ulp, far below the granularity of any property
stated here).  Go byte strings are modelled as `List Char` (for JSON text,
which in the claims is ASCII) or `List Nat` (for credential bytes, where
byte-level slicing matters).
-/

namespace Warlot

/-! ## JSON tokens and values (model of `encoding/json`) -/

/-- A JSON token as returned by `json.Decoder.Token`: delimiters,
strings, numbers, booleans and null.  (Integral numbers suffice for the
bodies examined here.) -/
inductive JTok where
  | lbrace
  | rbrace
  | lbrack
  | rbrack
  | jstr (s : String)
  | jnum (n : Int)
  | jbool (b : Bool)
  | jnull
deriving DecidableEq, Repr

/-- A decoded JSON value (target of `json.Unmarshal` / `Decoder.Decode`). -/
inductive JVal where
  | obj (fields : List (String × JVal))
  | arr (elems : List JVal)
  | str (s : String)
  | num (n : Int)
  | bool (b : Bool)
  | null
deriving Repr

/-- JSON insignificant whitespace. -/
def isWsChar (c : Char) : Bool :=
  c = ' ' || c = '\n' || c = '\t' || c = '\r'

/-- Drop leading whitespace (model of the decoder's `peek` skipping). -/
def skipWs : List Char → List Char
  | [] => []
  | c :: cs => if isWsChar c then skipWs cs else c :: cs

/-- Drop leading whitespace and at most one element/member separator
(`,` or `:`); `Decoder.Token` and `Decoder.Decode` consume the separator
preceding the next token/value. -/
def skipSep (cs : List Char) : List Char :=
  match skipWs cs with
  | ',' :: r => skipWs r
  | ':' :: r => skipWs r
  | r => r

/-- Translate a JSON string escape character (after `\`). -/
def unescapeChar (c : Char) : Char :=
  if c = 'n' then '\n'
  else if c = 't' then '\t'
  else if c = 'r' then '\r'
  else c

/-- Scan the remainder of a JSON string literal (the opening quote already
consumed); returns the content and the rest of the input, or `none` if the
input ends before the closing quote. -/
def scanStr : List Char → Option (List Char × List Char)
  | [] => none
  | c :: r =>
    if c = '\"' then some ([], r)
    else if c = '\\' then
      match r with
      | [] => none
      | e :: r2 => (scanStr r2).map (fun p => (unescapeChar e :: p.1, p.2))
    else (scanStr r).map (fun p => (c :: p.1, p.2))

/-- Longest digit prefix of the input. -/
def scanDigits : List Char → List Char × List Char
  | [] => ([], [])
  | c :: r =>
    if c.isDigit then
      let p := scanDigits r
      (c :: p.1, p.2)
    else ([], c :: r)

/-- Digits to a natural number. -/
def digitsToNat (ds : List Char) : Nat :=
  ds.foldl (fun a c => a * 10 + (c.toNat - 48)) 0

/-- Read one token given its first significant character `c` and the input
`r` following it. -/
def readToken (c : Char) (r : List Char) : Option (JTok × List Char) :=
  if c = '\x7b' then some (.lbrace, r)
  else if c = '\x7d' then some (.rbrace, r)
  else if c = '[' then some (.lbrack, r)
  else if c = ']' then some (.rbrack, r)
  else if c = '\"' then (scanStr r).map (fun p => (.jstr (String.mk p.1), p.2))
  else if c = '-' then
    match scanDigits r with
    | ([], _) => none
    | (ds, rest) => some (.jnum (-(digitsToNat ds : Int)), rest)
  else if c.isDigit then
    let p := scanDigits (c :: r)
    some (.jnum (digitsToNat p.1), p.2)
  else if c = 't' then
    match r with
    | 'r' :: 'u' :: 'e' :: rest => some (.jbool true, rest)
    | _ => none
  else if c = 'f' then
    match r with
    | 'a' :: 'l' :: 's' :: 'e' :: rest => some (.jbool false, rest)
    | _ => none
  else if c = 'n' then
    match r with
    | 'u' :: 'l' :: 'l' :: rest => some (.jnull, rest)
    | _ => none
  else none

/-- Model of `json.Decoder.Token`: skip whitespace and a pending separator,
then read one token.  Returns `none` on exhausted or malformed input (the
Go decoder returns an error value; `RowScanner` only stores it, so the
distinction between `io.EOF` and a syntax error is not observable here). -/
def nextToken (cs0 : List Char) : Option (JTok × List Char) :=
  match skipSep cs0 with
  | [] => none
  | c :: r => readToken c r

/-- Parsing mode for the fuelled JSON value parser: a whole value, the
members of an object (after `\x7b`), or the elements of an array (after `[`).
A single fuelled function (rather than three mutually recursive ones) keeps
every definition structurally recursive, hence kernel-reducible. -/
inductive PMode where
  | top
  | members
  | elems

/-- Intermediate result of the fuelled parser. -/
inductive POut where
  | val (v : JVal)
  | fields (fs : List (String × JVal))
  | items (vs : List JVal)

/-- Fuelled recursive-descent JSON parser (model of `Decoder.Decode` /
`json.Unmarshal`'s grammar).  Each recursive call consumes at least one
character, so fuel `length + 1` always suffices. -/
def parseF : Nat → PMode → List Char → Option (POut × List Char)
  | 0, _, _ => none
  | f + 1, .top, cs =>
    match nextToken cs with
    | some (.lbrace, r) =>
      (match skipWs r with
       | '\x7d' :: rest => some (.val (.obj []), rest)
       | _ =>
         match parseF f .members r with
         | some (.fields fs, rest) => some (.val (.obj fs), rest)
         | _ => none)
    | some (.lbrack, r) =>
      (match skipWs r with
       | ']' :: rest => some (.val (.arr []), rest)
       | _ =>
         match parseF f .elems r with
         | some (.items vs, rest) => some (.val (.arr vs), rest)
         | _ => none)
    | some (.jstr s, r) => some (.val (.str s), r)
    | some (.jnum n, r) => some (.val (.num n), r)
    | some (.jbool b, r) => some (.val (.bool b), r)
    | some (.jnull, r) => some (.val .null, r)
    | _ => none
  | f + 1, .members, cs =>
    match nextToken cs with
    | some (.jstr k, r) =>
      (match parseF f .top r with
       | some (.val v, r2) =>
         (match skipWs r2 with
          | ',' :: r3 =>
            (match parseF f .members r3 with
             | some (.fields fs, rest) => some (.fields ((k, v) :: fs), rest)
             | _ => none)
          | '\x7d' :: r3 => some (.fields [(k, v)], r3)
          | _ => none)
       | _ => none)
    | _ => none
  | f + 1, .elems, cs =>
    match parseF f .top cs with
    | some (.val v, r) =>
      (match skipWs r with
       | ',' :: r2 =>
         (match parseF f .elems r2 with
          | some (.items vs, rest) => some (.items (v :: vs), rest)
          | _ => none)
       | ']' :: r2 => some (.items [v], r2)
       | _ => none)
    | _ => none

/-- Parse one complete JSON value at the head of the input. -/
def parseJSONValue (cs : List Char) : Option (JVal × List Char) :=
  match parseF (cs.length + 1) .top cs with
  | some (.val v, r) => some (v, r)
  | _ => none

/-- Model of `json.Unmarshal` into a generic target: the body must be one
complete JSON value followed only by whitespace. -/
def unmarshalJSON (cs : List Char) : Option JVal :=
  match parseJSONValue cs with
  | some (v, r) => if (skipWs r).isEmpty then some v else none
  | none => none

/-- Model of `json.Decoder.More`: peek at the next non-whitespace byte;
there is more if the input is not exhausted and the byte is neither `]`
nor `\x7d`. -/
def jsonMore (cs : List Char) : Bool :=
  match skipWs cs with
  | [] => false
  | c :: _ => !(c = ']' || c = '\x7d')

/-! ## `RowScanner` (stream.go) -/

/-- Terminal errors recorded by the scanner (`RowScanner.lastErr`) or
returned by `ExecSQLStream`'s prologue.  `tokenErr` stands for any error
value returned by `Decoder.Token` (EOF or syntax error); the Go code only
stores these, so their identity is not observable. -/
inductive ScanErr where
  | tokenErr
  | unexpectedAfterRows (t : JTok)
  | decodeErr
  | unexpectedStart (t : JTok)
deriving DecidableEq, Repr

/-- State of a `RowScanner` (stream.go lines 13–19).  The `json.Decoder`
with its buffered input is modelled by the remaining character stream
`rest`; `closed` records that the underlying response body has been
closed (`closer = nil` after `Close`). -/
structure Scanner where
  rest : List Char
  inRows : Bool
  done : Bool
  lastErr : Option ScanErr
  closed : Bool
deriving Repr

/-- The seek phase of `RowScanner.Next` (stream.go lines 28–52): read
tokens until a string token equal to `"rows"` appears (whether it is an
object key or a string value — the Go code inspects the token only), then
require the following token to be `[`.  Returns the stream positioned
inside the array, or the terminal error.  Fuelled; each token consumes at
least one character, so fuel `length + 1` suffices. -/
def seekRows : Nat → List Char → Except ScanErr (List Char)
  | 0, _ => .error .tokenErr
  | f + 1, cs =>
    match nextToken cs with
    | none => .error .tokenErr
    | some (.jstr key, r) =>
      if key = "rows" then
        match nextToken r with
        | none => .error .tokenErr
        | some (.lbrack, r2) => .ok r2
        | some (t, _) => .error (.unexpectedAfterRows t)
      else seekRows f r
    | some (_, r) => seekRows f r

/-- `RowScanner.Next` (stream.go lines 23–67).  Returns the scanner after
the call, the boolean result, and the value decoded into `dst` (when the
result is `true`).  On error paths the body is closed and the decoder is
not used again, so `rest` is dropped. -/
def Scanner.next (s : Scanner) : Scanner × Bool × Option JVal :=
  if s.done then (s, false, none)
  else
    match (if s.inRows then Except.ok s.rest else seekRows (s.rest.length + 1) s.rest) with
    | .error e => ({ s with rest := [], lastErr := some e, closed := true }, false, none)
    | .ok cs =>
      if jsonMore cs then
        match parseF (cs.length + 1) .top cs with
        | some (.val v, cs2) => ({ s with rest := cs2, inRows := true }, true, some v)
        | _ => ({ s with rest := [], inRows := true, lastErr := some .decodeErr, closed := true }, false, none)
      else
        -- Consume the closing `]`; the token and any error are discarded
        -- (`_, _ = s.dec.Token()`), then the scanner finishes cleanly.
        let cs2 := match nextToken cs with
          | some p => p.2
          | none => cs
        ({ s with rest := cs2, inRows := true, done := true, closed := true }, false, none)

/-- `RowScanner.Err`. -/
def Scanner.err (s : Scanner) : Option ScanErr := s.lastErr

/-- The scanner-construction epilogue of `ExecSQLStream` (stream.go lines
92–102): read the first token of the 2xx body, require it to be `\x7b`, and
hand the remaining stream to a fresh `RowScanner`. -/
def mkScanner (body : List Char) : Except ScanErr Scanner :=
  match nextToken body with
  | none => .error .tokenErr
  | some (.lbrace, rest) =>
    .ok { rest := rest, inRows := false, done := false, lastErr := none, closed := false }
  | some (t, _) => .error (.unexpectedStart t)

/-- Drive `Scanner.next` `n` times, collecting each call's `(bool, decoded)`
outcome; returns the outcomes in call order and the final scanner. -/
def runNext : Nat → Scanner → List (Bool × Option JVal) × Scanner
  | 0, s => ([], s)
  | n + 1, s =>
    let r := s.next
    let rs := runNext n r.1
    ((r.2.1, r.2.2) :: rs.1, rs.2)

/-! ## Retry helpers (helpers file: `normalizeBackoff`, `normalizeRetries`,
`nextBackoff`, `jitterSleep`, `parseAPIError`) -/

/-- `normalizeRetries`: negative configured retry counts become 0. -/
def normalizeRetries (r : Int) : Nat :=
  if r < 0 then 0 else r.toNat

/-- `normalizeBackoff`: non-positive configured durations are replaced by
200ms initial / 2s max (nanoseconds). -/
def normalizeBackoff (initial maxB : Int) : Nat × Nat :=
  (if initial ≤ 0 then 200000000 else initial.toNat,
   if maxB ≤ 0 then 2000000000 else maxB.toNat)

/-- `nextBackoff`: double, clamped at `maxBack`. -/
def nextBackoffDur (backoff maxBack : Nat) : Nat :=
  if backoff * 2 > maxBack then maxBack else backoff * 2

/-- The duration slept by `jitterSleep`: `backoff * (0.5 + 0.5*r)` clamped
at `maxBack`, where the pseudo-random `r = (n % 1000) / 1000` is supplied
as `j = n % 1000`.  Written exactly as `backoff * (1000 + j) / 2000` over
`Nat` (float64 rounding abstracted). -/
def jitterDur (backoff maxBack j : Nat) : Nat :=
  let jit := backoff * (1000 + j % 1000) / 2000
  if jit > maxBack then maxBack else jit

/-- The structured error built from a non-2xx response
(`APIError` in errors.go). -/
structure APIError where
  statusCode : Nat
  body : String
  message : String
  code : String
  details : Option JVal
deriving Repr

/-- Unmarshal of the error body into the anonymous
`{message, error, code, details}` struct of `parseAPIError`: succeeds only
if each of the three string fields, when present, holds a JSON string
(`null` is a no-op for Go unmarshal); `details` accepts anything.  Later
duplicate keys overwrite earlier ones, as in `encoding/json`. -/
def errFieldsOf (fs : List (String × JVal)) :
    Option (String × String × String × Option JVal) :=
  fs.foldl
    (fun acc kv =>
      match acc with
      | none => none
      | some (m, e, c, d) =>
        match kv with
        | ("message", .str s) => some (s, e, c, d)
        | ("message", .null) => some (m, e, c, d)
        | ("message", _) => none
        | ("error", .str s) => some (m, s, c, d)
        | ("error", .null) => some (m, e, c, d)
        | ("error", _) => none
        | ("code", .str s) => some (m, e, s, d)
        | ("code", .null) => some (m, e, c, d)
        | ("code", _) => none
        | ("details", v) => some (m, e, c, some v)
        | _ => some (m, e, c, d))
    (some ("", "", "", none))

/-- `parseAPIError` (helpers): best-effort parse of the body; `message`
falls back to the `error` field; the raw body is preserved verbatim. -/
def parseAPIError (code : Nat) (b : List Char) : APIError :=
  let base : APIError := ⟨code, String.mk b, "", "", none⟩
  match unmarshalJSON b with
  | some (.obj fs) =>
    match errFieldsOf fs with
    | some (m, e, c, d) =>
      { base with
        message := if m ≠ "" then m else if e ≠ "" then e else ""
        code := c
        details := d }
    | none => base
  | _ => base

/-! ## The request executors (`doJSON`, `doRequest`)

The HTTP transport (`c.HTTPClient.Do`) and the per-attempt pseudo-random
jitter are supplied by an environment `env : Nat → Attempt` giving, for
each attempt index, the outcome of the send, the jitter random value, and
whether the external context fires during that attempt's backoff sleep
(`jitterSleep` then returns early; the Go loop takes no other notice of
the context). -/

/-- Outcome of one `c.HTTPClient.Do` call: a transport-level error (no
response; this includes a send aborted by context cancellation), or a
response with status, fully-read body, and the already-parsed value of its
`Retry-After` header (`parseRetryAfter` result in nanoseconds; `0` when
absent or unparseable — `parseRetryAfter` never returns a negative). -/
inductive HttpOutcome where
  | err
  | resp (status : Nat) (body : List Char) (retryAfter : Nat)

/-- Environment entry for one attempt. -/
structure Attempt where
  outcome : HttpOutcome
  jit : Nat
  ctxDoneInSleep : Bool

/-- The values `doJSON` keeps in `lastErr`.  The Go variable holds wrapped
errors built with `fmt.Errorf(... %w ...)`; a *bare* `*APIError` is a
distinct shape (constructor `api`) that the line-100 type assertion tests
for — `doJSON` itself only ever stores the wrapped shapes. -/
inductive GoErr where
  | transport
  | wrapAPI (e : APIError)
  | decodeFail (body : List Char)
  | api (e : APIError)

/-- Result of a `doJSON` call. -/
inductive DoOut where
  | success (decoded : Option JVal)
  | apiError (e : APIError)
  | lastErrReturn (e : GoErr)
  | exhausted (attempts : Nat) (last : GoErr)

/-- Observable trace of one executor run: the final result, the number of
HTTP requests issued, and the backoff sleeps taken (planned jitter
duration, and whether the context fired during that sleep, cutting it
short). -/
structure RunResult (ω : Type) where
  out : ω
  requests : Nat
  waits : List (Nat × Bool)

/-- One-attempt step outcome: an early `return`, or fall through to the
bottom of the loop with the freshly assigned `lastErr` and the (possibly
Retry-After-raised) backoff. -/
inductive StepRes (ω : Type) where
  | ret (o : ω)
  | cont (ne : GoErr) (backoff : Nat)

/-- Lines 99–102 of doJSON: the "stop retrying on non-retriable errors"
check.  `lastErr` (just assigned: every path reaching this point assigns
it) is type-asserted to a bare `*APIError`; wrapped errors never satisfy
the assertion. -/
def checkNonRetriable (ne : GoErr) (backoff : Nat) : StepRes DoOut :=
  match ne with
  | .api e =>
    if e.statusCode ≠ 429 ∧ e.statusCode / 100 ≠ 5 then .ret (.lastErrReturn (.api e))
    else .cont (.api e) backoff
  | _ => .cont ne backoff

/-- One attempt of `doJSON` (lines 34–102): send, classify, decode on 2xx.
`dec` models `json.Unmarshal(body, out)` for the caller's decode target;
`outWanted` models `out != nil`. -/
def doJSONStep (dec : List Char → Option JVal) (outWanted : Bool)
    (a : Attempt) (backoff : Nat) : StepRes DoOut :=
  match a.outcome with
  | .err => checkNonRetriable .transport backoff
  | .resp st body ra =>
    if st / 100 = 2 then
      if outWanted && !body.isEmpty then
        match dec body with
        | some v => .ret (.success (some v))
        | none => checkNonRetriable (.decodeFail body) backoff
      else .ret (.success none)
    else
      if st = 429 ∨ st / 100 = 5 then
        checkNonRetriable (.wrapAPI (parseAPIError st body))
          (if 0 < ra ∧ backoff < ra then ra else backoff)
      else .ret (.apiError (parseAPIError st body))

/-- The retry loop of `doJSON` (`for attempt := 0; attempt <= retries`),
recursing on `left = retries - attempt`; when `left = 0` the current
attempt is the last one, the loop exits, and the pending error is wrapped
with the total attempt count (line 111). -/
def doJSONLoop (dec : List Char → Option JVal) (outWanted : Bool)
    (env : Nat → Attempt) (maxBack : Nat) :
    Nat → Nat → Nat → RunResult DoOut
  | attempt, 0, backoff =>
    match doJSONStep dec outWanted (env attempt) backoff with
    | .ret o => ⟨o, 1, []⟩
    | .cont ne _ => ⟨.exhausted (attempt + 1) ne, 1, []⟩
  | attempt, left + 1, backoff =>
    match doJSONStep dec outWanted (env attempt) backoff with
    | .ret o => ⟨o, 1, []⟩
    | .cont _ b =>
      let w := jitterDur b maxBack (env attempt).jit
      let r := doJSONLoop dec outWanted env maxBack (attempt + 1) left (nextBackoffDur b maxBack)
      ⟨r.out, r.requests + 1, (w, (env attempt).ctxDoneInSleep) :: r.waits⟩

/-- `Client.doJSON` (lines 15–112): normalize configuration, then run the
attempt loop. -/
def doJSON (dec : List Char → Option JVal) (outWanted : Bool)
    (maxRetries initialBackoff maxBackoff : Int) (env : Nat → Attempt) :
    RunResult DoOut :=
  let nb := normalizeBackoff initialBackoff maxBackoff
  doJSONLoop dec outWanted env nb.2 0 (normalizeRetries maxRetries) nb.1

/-- Result of a `doRequest` call: on 2xx the open response is returned
without reading its body (the unread stream is carried by `stream`). -/
inductive DoReqOut where
  | stream (status : Nat) (body : List Char)
  | apiError (e : APIError)
  | exhausted (attempts : Nat) (last : GoErr)

/-- One attempt of `doRequest` (lines 135–183): same classification as
`doJSON` but a 2xx returns the live response, and there is no
"stop retrying" type-assertion block. -/
def doRequestStep (a : Attempt) (backoff : Nat) : StepRes DoReqOut :=
  match a.outcome with
  | .err => .cont .transport backoff
  | .resp st body ra =>
    if st / 100 = 2 then .ret (.stream st body)
    else
      if st = 429 ∨ st / 100 = 5 then
        .cont (.wrapAPI (parseAPIError st body))
          (if 0 < ra ∧ backoff < ra then ra else backoff)
      else .ret (.apiError (parseAPIError st body))

/-- The retry loop of `doRequest` (lines 134–190). -/
def doRequestLoop (env : Nat → Attempt) (maxBack : Nat) :
    Nat → Nat → Nat → RunResult DoReqOut
  | attempt, 0, backoff =>
    match doRequestStep (env attempt) backoff with
    | .ret o => ⟨o, 1, []⟩
    | .cont ne _ => ⟨.exhausted (attempt + 1) ne, 1, []⟩
  | attempt, left + 1, backoff =>
    match doRequestStep (env attempt) backoff with
    | .ret o => ⟨o, 1, []⟩
    | .cont _ b =>
      let w := jitterDur b maxBack (env attempt).jit
      let r := doRequestLoop env maxBack (attempt + 1) left (nextBackoffDur b maxBack)
      ⟨r.out, r.requests + 1, (w, (env attempt).ctxDoneInSleep) :: r.waits⟩

/-- `Client.doRequest` (lines 116–191). -/
def doRequest (maxRetries initialBackoff maxBackoff : Int) (env : Nat → Attempt) :
    RunResult DoReqOut :=
  let nb := normalizeBackoff initialBackoff maxBackoff
  doRequestLoop env nb.2 0 (normalizeRetries maxRetries) nb.1

/-- `ExecSQLStream` (stream.go lines 84–103): run the streaming executor;
on a live 2xx stream, build the `RowScanner` from the body. -/
def execSQLStream (maxRetries initialBackoff maxBackoff : Int)
    (env : Nat → Attempt) : Except ScanErr Scanner :=
  match (doRequest maxRetries initialBackoff maxBackoff env).out with
  | .stream _ body => mkScanner body
  | _ => .error .tokenErr

/-! ## `Pager` (pager.go) -/

/-- `Pager` cursor state (pager.go lines 7–13).  The `Project` and `Table`
fields only route the `Browse` call and are captured here by the `browse`
function passed to `next`. -/
structure Pager where
  limit : Int
  offset : Int
  done : Bool
deriving DecidableEq, Repr

/-- `Pager.Next` (pager.go lines 16–30).  `browse limit offset` models
`p.Project.Browse(ctx, p.Table, limit, offset)` returning either an error
or the `Rows` field of the response; the Go return pairs map to
`Except`/`Option`: `(nil, err) ↦ .error e`, `(nil, nil) ↦ .ok none`,
`(rows, nil) ↦ .ok (some rows)`. -/
def Pager.next {ε α : Type} (browse : Int → Int → Except ε (List α))
    (p : Pager) : Pager × Except ε (Option (List α)) :=
  if p.done then (p, .ok none)
  else
    match browse p.limit p.offset with
    | .error e => (p, .error e)
    | .ok rows =>
      if rows.length = 0 then ({ p with done := true }, .ok none)
      else ({ p with offset := p.offset + rows.length }, .ok (some rows))

/-! ## `redactHeaders` (helpers) -/

/-- Byte sequence of the UTF-8 ellipsis `…` (U+2026) inserted by
`redactHeaders` between the 4-byte prefix and suffix. -/
def ellipsisBytes : List Nat := [226, 128, 166]

/-- The fixed mask used for credentials of at most 8 bytes. -/
def maskBytes : List Nat := List.replicate 8 42

/-- The masking applied by `redactHeaders` to one `x-api-key` value
(Go string slicing is byte-level, so values are byte lists). -/
def redactValue (v : List Nat) : List Nat :=
  if 8 < v.length then v.take 4 ++ ellipsisBytes ++ v.drop (v.length - 4)
  else maskBytes

/-- ASCII case folding of one character code (`strings.EqualFold`
restricted to the ASCII header names used here). -/
def foldCode (c : Char) : Nat :=
  if 65 ≤ c.toNat ∧ c.toNat ≤ 90 then c.toNat + 32 else c.toNat

/-- ASCII-case-insensitive header-name comparison. -/
def eqFold (a b : String) : Bool :=
  a.data.map foldCode == b.data.map foldCode

/-- `redactHeaders`: build a fresh header copy, masking every value of the
`x-api-key` header and copying everything else verbatim.  Headers are
modelled as a list of (name, value-bytes) pairs. -/
def redactHeaders (h : List (String × List Nat)) : List (String × List Nat) :=
  h.map (fun kv => if eqFold kv.1 "x-api-key" then (kv.1, redactValue kv.2) else kv)

/-! ## The seek-phase misidentification predicate (for stream.go lines 28–52)

`SeekBad cs t` holds when, scanning `cs` token by token, the first token
equal to the string `"rows"` (whether an object key or a string value, at
any depth — the seek loop inspects tokens only) is immediately followed by
the token `t`, and `t` is not the array-open delimiter. -/

/-- The first `"rows"` string token in the stream is followed by the
non-`[` token `t`. -/
inductive SeekBad : List Char → JTok → Prop where
  | found {cs r r2 t} :
      nextToken cs = some (.jstr "rows", r) →
      nextToken r = some (t, r2) →
      t ≠ .lbrack →
      SeekBad cs t
  | step {cs t' r t} :
      nextToken cs = some (t', r) →
      t' ≠ .jstr "rows" →
      SeekBad r t →
      SeekBad cs t

/-! ## Concrete inputs used by the individual claims -/

/-- The row object `\x7b"id": n\x7d`. -/
def idRow (n : Int) : JVal := .obj [("id", .num n)]

/-- C1: an environment in which every attempt yields HTTP 200 with the
body `x`, which no JSON decode target can accept. -/
def envDecodeFail : Nat → Attempt := fun _ => ⟨.resp 200 ['x'] 0, 0, false⟩

/-- C2: attempt 0 yields 503 with a parsed `Retry-After` of 1s and jitter
random value 0; attempt 1 succeeds. -/
def envRetryAfter : Nat → Attempt := fun i =>
  if i = 0 then ⟨.resp 503 [] 1000000000, 0, false⟩ else ⟨.resp 200 [] 0, 0, false⟩

/-- C4: attempt 0 yields 503 and the context fires during the backoff
sleep that follows it; every later send fails immediately with the context
error (a transport-level error). -/
def envCancelled : Nat → Attempt := fun i =>
  if i = 0 then ⟨.resp 503 [] 0, 0, true⟩ else ⟨.err, 0, true⟩

/-- C6: the well-formed streaming body. -/
def okBody : List Char :=
  "\x7b\"ok\":true,\"rows\":[\x7b\"id\":1\x7d,\x7b\"id\":2\x7d,\x7b\"id\":3\x7d]\x7d".data

/-- C6: an environment whose only attempt is a 2xx streaming response
carrying `okBody`. -/
def envStreamOk : Nat → Attempt := fun _ => ⟨.resp 200 okBody 0, 0, false⟩

/-- C7: the truncated streaming body (no closing brackets). -/
def truncBody : List Char :=
  "\x7b\"ok\":true,\"rows\":[\x7b\"id\":1\x7d,\x7b\"id\":2\x7d".data

/-- C7: an environment whose only attempt is a 2xx streaming response
carrying `truncBody`. -/
def envStreamTrunc : Nat → Attempt := fun _ => ⟨.resp 200 truncBody 0, 0, false⟩

/-- C10: a body whose string `"rows"` first occurs as the *value* of an
earlier field. -/
def noteBody : List Char :=
  "\x7b\"note\":\"rows\",\"rows\":[\x7b\"id\":1\x7d]\x7d".data

/-- C10: the scanner `ExecSQLStream` builds for `noteBody` (after the
leading `\x7b` has been consumed). -/
def noteScanner : Scanner :=
  { rest := "\"note\":\"rows\",\"rows\":[\x7b\"id\":1\x7d]\x7d".data
    inRows := false, done := false, lastErr := none, closed := false }

/-- C5: a non-retryable 400 response on every attempt. -/
def envBadRequest : Nat → Attempt := fun _ =>
  ⟨.resp 400 "\x7b\"message\":\"bad request\"\x7d".data 0, 0, false⟩

/-- C8: the paging fetch scenario — 2 rows at offset 0, 2 rows at offset
2, none afterwards (page size 2); rows are represented by their ids. -/
def browseScenario : Int → Int → Except Unit (List Nat) := fun _ off =>
  if off = 0 then .ok [10, 20]
  else if off = 2 then .ok [30, 40]
  else .ok []

/-- C9: an 11-byte credential of the shape `prefix ++ ellipsis ++ suffix`
(bytes of `abcd…efgh`), which `redactValue` maps to itself. -/
def leakKey : List Nat := [97, 98, 99, 100] ++ ellipsisBytes ++ [101, 102, 103, 104]

/-- C3: an environment answering 503 with an empty body on every attempt. -/
def env503 : Nat → Attempt := fun _ => ⟨.resp 503 [] 0, 0, false⟩

/-- C10: the stream remaining after the token `"note"` of `noteScanner`. -/
def noteRest1 : List Char := ":\"rows\",\"rows\":[\x7b\"id\":1\x7d]\x7d".data

/-- C10: the stream remaining after the first `"rows"` token (the value of
the `note` field). -/
def noteRest2 : List Char := ",\"rows\":[\x7b\"id\":1\x7d]\x7d".data

/-- C10: the stream remaining after the second `"rows"` token (the real
object key). -/
def noteRest3 : List Char := ":[\x7b\"id\":1\x7d]\x7d".data

/-! ## Supporting lemmas: token consumption and the seek phase -/

lemma skipWs_length (cs : List Char) : (skipWs cs).length ≤ cs.length := by
  induction cs with
  | nil => simp [skipWs]
  | cons c r ih =>
    simp only [skipWs]
    split
    · exact le_trans ih (by simp)
    · simp

lemma skipSep_length (cs : List Char) : (skipSep cs).length ≤ cs.length := by
  unfold skipSep
  have h := skipWs_length cs
  split
  next r heq =>
    have h2 := skipWs_length r
    rw [heq] at h
    simp at h
    omega
  next r heq =>
    have h2 := skipWs_length r
    rw [heq] at h
    simp at h
    omega
  next => exact h

lemma scanStr_length_aux :
    ∀ (n : Nat) (l : List Char) (p : List Char × List Char),
      l.length ≤ n → scanStr l = some p → p.2.length < l.length := by
  intro n
  induction n with
  | zero =>
    intro l p hl h
    have : l = [] := List.length_eq_zero.mp (Nat.le_zero.mp hl)
    subst this
    simp [scanStr] at h
  | succ n ih =>
    intro l p hl h
    match l with
    | [] => simp [scanStr] at h
    | c :: r =>
      unfold scanStr at h
      split at h
      · cases h
        simp
      · split at h
        · cases r with
          | nil => simp at h
          | cons e r2 =>
            simp only [Option.map_eq_some'] at h
            obtain ⟨q, hq, hp⟩ := h
            have hr2 : r2.length ≤ n := by
              simp only [List.length_cons] at hl
              omega
            have := ih r2 q hr2 hq
            subst hp
            simp only [List.length_cons]
            omega
        · simp only [Option.map_eq_some'] at h
          obtain ⟨q, hq, hp⟩ := h
          have hr : r.length ≤ n := by
            simp only [List.length_cons] at hl
            omega
          have := ih r q hr hq
          subst hp
          simp only [List.length_cons]
          omega

lemma scanStr_length {l : List Char} {p : List Char × List Char}
    (h : scanStr l = some p) : p.2.length < l.length :=
  scanStr_length_aux l.length l p le_rfl h

lemma scanDigits_length (l : List Char) : (scanDigits l).2.length ≤ l.length := by
  induction l with
  | nil => simp [scanDigits]
  | cons c r ih =>
    simp only [scanDigits]
    split
    · simpa using le_trans ih (by simp)
    · simp

lemma readToken_length {c : Char} {r : List Char} {t : JTok} {rest : List Char}
    (h : readToken c r = some (t, rest)) : rest.length ≤ r.length := by
  unfold readToken at h
  split at h
  · cases h; omega
  · split at h
    · cases h; omega
    · split at h
      · cases h; omega
      · split at h
        · cases h; omega
        · split at h
          · simp only [Option.map_eq_some'] at h
            obtain ⟨q, hq, hp⟩ := h
            have := scanStr_length hq
            cases hp
            omega
          · split at h
            · split at h
              · simp at h
              · rename_i ds rest2 heq
                cases h
                have := scanDigits_length r
                rw [heq] at this
                simp at this
                omega
            · split at h
              · rename_i hdig
                cases h
                have := scanDigits_length r
                simp only [scanDigits, hdig, if_pos]
                omega
              · split at h
                · split at h
                  · cases h
                    simp
                    omega
                  · simp at h
                · split at h
                  · split at h
                    · cases h
                      simp
                      omega
                    · simp at h
                  · split at h
                    · split at h
                      · cases h
                        simp
                        omega
                      · simp at h
                    · simp at h

lemma nextToken_shrinks {cs : List Char} {t : JTok} {r : List Char}
    (h : nextToken cs = some (t, r)) : r.length < cs.length := by
  unfold nextToken at h
  have hs := skipSep_length cs
  cases hss : skipSep cs with
  | nil => rw [hss] at h; simp at h
  | cons c r0 =>
    rw [hss] at h
    rw [hss] at hs
    simp only [List.length_cons] at hs
    have := readToken_length h
    omega

lemma seekRows_of_seekBad {cs : List Char} {t : JTok} (h : SeekBad cs t) :
    ∀ f, cs.length < f → seekRows f cs = .error (.unexpectedAfterRows t) := by
  induction h with
  | @found cs r r2 t h1 h2 h3 =>
    intro f hf
    obtain ⟨g, rfl⟩ : ∃ g, f = g + 1 := ⟨f - 1, by omega⟩
    cases t <;> simp [seekRows, h1, h2]
    exact absurd rfl h3
  | @step cs t' r t h1 h2 _ ih =>
    intro f hf
    obtain ⟨g, rfl⟩ : ∃ g, f = g + 1 := ⟨f - 1, by omega⟩
    have hr := nextToken_shrinks h1
    have hg : r.length < g := by omega
    cases t' with
    | jstr k =>
      have hk : ¬(k = "rows") := fun hkk => h2 (by rw [hkk])
      simp [seekRows, h1, hk]
      exact ih g hg
    | lbrace => simpa [seekRows, h1] using ih g hg
    | rbrace => simpa [seekRows, h1] using ih g hg
    | lbrack => simpa [seekRows, h1] using ih g hg
    | rbrack => simpa [seekRows, h1] using ih g hg
    | jnum n => simpa [seekRows, h1] using ih g hg
    | jbool b => simpa [seekRows, h1] using ih g hg
    | jnull => simpa [seekRows, h1] using ih g hg


lemma jitterDur_eq (b m j : Nat) :
    jitterDur b m j = min (b * (1000 + j % 1000) / 2000) m := by
  unfold jitterDur
  dsimp only
  split <;> omega

lemma jitterDur_upper (b m j : Nat) : jitterDur b m j ≤ min b m := by
  have h0 : 1000 + j % 1000 ≤ 2000 := by
    have := Nat.mod_lt j (show 0 < 1000 by norm_num)
    omega
  have h1 : b * (1000 + j % 1000) / 2000 ≤ b := by
    calc b * (1000 + j % 1000) / 2000
        ≤ b * 2000 / 2000 := Nat.div_le_div_right (Nat.mul_le_mul_left _ h0)
      _ = b := by omega
  rw [jitterDur_eq]
  omega

lemma jitterDur_lower (b m j : Nat) : min (b / 2) m ≤ jitterDur b m j := by
  have h1 : b * 1000 / 2000 ≤ b * (1000 + j % 1000) / 2000 :=
    Nat.div_le_div_right (Nat.mul_le_mul_left _ (by omega))
  have h2 : b * 1000 / 2000 = b / 2 := by
    rw [show (2000 : Nat) = 1000 * 2 from rfl, show b * 1000 = 1000 * b from Nat.mul_comm b 1000,
      Nat.mul_div_mul_left b 2 (by norm_num)]
  rw [jitterDur_eq]
  omega


lemma doJSONStep_err (dec : List Char → Option JVal) (outW : Bool) (a : Attempt)
    (backoff : Nat) (ho : a.outcome = .err) :
    doJSONStep dec outW a backoff = .cont .transport backoff := by
  simp only [doJSONStep, ho]
  rfl

lemma doJSONStep_nonretryable (dec : List Char → Option JVal) (outW : Bool) (a : Attempt)
    (backoff st : Nat) (body : List Char) (ra : Nat)
    (ho : a.outcome = .resp st body ra) (h2 : st / 100 ≠ 2)
    (hnr : ¬(st = 429 ∨ st / 100 = 5)) :
    doJSONStep dec outW a backoff = .ret (.apiError (parseAPIError st body)) := by
  simp only [doJSONStep, ho]
  rw [if_neg h2, if_neg hnr]

lemma doJSONStep_retryable (dec : List Char → Option JVal) (outW : Bool) (a : Attempt)
    (backoff st : Nat) (body : List Char) (ra : Nat)
    (ho : a.outcome = .resp st body ra) (h2 : st / 100 ≠ 2)
    (hr : st = 429 ∨ st / 100 = 5) :
    doJSONStep dec outW a backoff =
      .cont (.wrapAPI (parseAPIError st body)) (if 0 < ra ∧ backoff < ra then ra else backoff) := by
  simp only [doJSONStep, ho]
  rw [if_neg h2, if_pos hr]
  rfl

lemma doRequestStep_nonretryable (a : Attempt) (backoff st : Nat) (body : List Char) (ra : Nat)
    (ho : a.outcome = .resp st body ra) (h2 : st / 100 ≠ 2)
    (hnr : ¬(st = 429 ∨ st / 100 = 5)) :
    doRequestStep a backoff = .ret (.apiError (parseAPIError st body)) := by
  simp only [doRequestStep, ho]
  rw [if_neg h2, if_neg hnr]

lemma doRequestStep_retryable (a : Attempt) (backoff st : Nat) (body : List Char) (ra : Nat)
    (ho : a.outcome = .resp st body ra) (h2 : st / 100 ≠ 2)
    (hr : st = 429 ∨ st / 100 = 5) :
    doRequestStep a backoff =
      .cont (.wrapAPI (parseAPIError st body)) (if 0 < ra ∧ backoff < ra then ra else backoff) := by
  simp only [doRequestStep, ho]
  rw [if_neg h2, if_pos hr]

lemma doJSONLoop_ret (dec : List Char → Option JVal) (outW : Bool) (env : Nat → Attempt)
    (maxB attempt backoff : Nat) (o : DoOut)
    (h : doJSONStep dec outW (env attempt) backoff = .ret o) (left : Nat) :
    doJSONLoop dec outW env maxB attempt left backoff = ⟨o, 1, []⟩ := by
  cases left <;> (unfold doJSONLoop; rw [h])

lemma doRequestLoop_ret (env : Nat → Attempt) (maxB attempt backoff : Nat) (o : DoReqOut)
    (h : doRequestStep (env attempt) backoff = .ret o) (left : Nat) :
    doRequestLoop env maxB attempt left backoff = ⟨o, 1, []⟩ := by
  cases left <;> (unfold doRequestLoop; rw [h])

lemma doJSONLoop_cont_zero (dec : List Char → Option JVal) (outW : Bool) (env : Nat → Attempt)
    (maxB attempt backoff : Nat) (ne : GoErr) (b2 : Nat)
    (h : doJSONStep dec outW (env attempt) backoff = .cont ne b2) :
    doJSONLoop dec outW env maxB attempt 0 backoff = ⟨.exhausted (attempt + 1) ne, 1, []⟩ := by
  unfold doJSONLoop; rw [h]

lemma doJSONLoop_cont_succ (dec : List Char → Option JVal) (outW : Bool) (env : Nat → Attempt)
    (maxB attempt backoff : Nat) (ne : GoErr) (b2 : Nat)
    (h : doJSONStep dec outW (env attempt) backoff = .cont ne b2) (l : Nat) :
    doJSONLoop dec outW env maxB attempt (l + 1) backoff =
      ⟨(doJSONLoop dec outW env maxB (attempt + 1) l (nextBackoffDur b2 maxB)).out,
       (doJSONLoop dec outW env maxB (attempt + 1) l (nextBackoffDur b2 maxB)).requests + 1,
       (jitterDur b2 maxB (env attempt).jit, (env attempt).ctxDoneInSleep) ::
         (doJSONLoop dec outW env maxB (attempt + 1) l (nextBackoffDur b2 maxB)).waits⟩ := by
  conv_lhs => unfold doJSONLoop
  rw [h]

lemma doJSONLoop_requests_pos (dec : List Char → Option JVal) (outW : Bool) (env : Nat → Attempt)
    (maxB attempt left backoff : Nat) :
    1 ≤ (doJSONLoop dec outW env maxB attempt left backoff).requests := by
  cases left <;> (unfold doJSONLoop; split <;> simp)

lemma doRequestLoop_requests_pos (env : Nat → Attempt) (maxB attempt left backoff : Nat) :
    1 ≤ (doRequestLoop env maxB attempt left backoff).requests := by
  cases left <;> (unfold doRequestLoop; split <;> simp)


lemma doRequestLoop_cont_succ (env : Nat → Attempt) (maxB attempt backoff : Nat)
    (ne : GoErr) (b2 : Nat)
    (h : doRequestStep (env attempt) backoff = .cont ne b2) (l : Nat) :
    doRequestLoop env maxB attempt (l + 1) backoff =
      ⟨(doRequestLoop env maxB (attempt + 1) l (nextBackoffDur b2 maxB)).out,
       (doRequestLoop env maxB (attempt + 1) l (nextBackoffDur b2 maxB)).requests + 1,
       (jitterDur b2 maxB (env attempt).jit, (env attempt).ctxDoneInSleep) ::
         (doRequestLoop env maxB (attempt + 1) l (nextBackoffDur b2 maxB)).waits⟩ := by
  conv_lhs => unfold doRequestLoop
  rw [h]

lemma doJSONLoop_all503 (dec : List Char → Option JVal) (outW : Bool) (env : Nat → Attempt)
    (maxB : Nat) (bs : Nat → List Char) (ras : Nat → Nat)
    (henv : ∀ i, (env i).outcome = .resp 503 (bs i) (ras i)) :
    ∀ (left attempt backoff : Nat),
      (doJSONLoop dec outW env maxB attempt left backoff).requests = left + 1 ∧
      (doJSONLoop dec outW env maxB attempt left backoff).out =
        .exhausted (attempt + left + 1) (.wrapAPI (parseAPIError 503 (bs (attempt + left)))) := by
  intro left
  induction left with
  | zero =>
    intro attempt backoff
    have hstep := doJSONStep_retryable dec outW (env attempt) backoff 503 (bs attempt)
      (ras attempt) (henv attempt) (by norm_num) (by norm_num)
    rw [doJSONLoop_cont_zero dec outW env maxB attempt backoff _ _ hstep]
    simp
  | succ l ih =>
    intro attempt backoff
    have hstep := doJSONStep_retryable dec outW (env attempt) backoff 503 (bs attempt)
      (ras attempt) (henv attempt) (by norm_num) (by norm_num)
    rw [doJSONLoop_cont_succ dec outW env maxB attempt backoff _ _ hstep l]
    have hr := ih (attempt + 1) (nextBackoffDur (if 0 < ras attempt ∧ backoff < ras attempt then ras attempt else backoff) maxB)
    have e1 : attempt + 1 + l = attempt + (l + 1) := by omega
    rw [e1] at hr
    refine ⟨by simp [hr.1], ?_⟩
    simp only [hr.2]

lemma doJSONLoop_all_err (dec : List Char → Option JVal) (outW : Bool) (env : Nat → Attempt)
    (maxB : Nat) (k : Nat) (henv : ∀ i, k ≤ i → (env i).outcome = .err) :
    ∀ (left attempt backoff : Nat), k ≤ attempt →
      (doJSONLoop dec outW env maxB attempt left backoff).requests = left + 1 ∧
      (doJSONLoop dec outW env maxB attempt left backoff).out =
        .exhausted (attempt + left + 1) .transport := by
  intro left
  induction left with
  | zero =>
    intro attempt backoff hk
    have hstep := doJSONStep_err dec outW (env attempt) backoff (henv attempt hk)
    rw [doJSONLoop_cont_zero dec outW env maxB attempt backoff _ _ hstep]
    simp
  | succ l ih =>
    intro attempt backoff hk
    have hstep := doJSONStep_err dec outW (env attempt) backoff (henv attempt hk)
    rw [doJSONLoop_cont_succ dec outW env maxB attempt backoff _ _ hstep l]
    have hr := ih (attempt + 1) (nextBackoffDur backoff maxB) (by omega)
    have e1 : attempt + 1 + l = attempt + (l + 1) := by omega
    rw [e1] at hr
    exact ⟨by simp [hr.1], by simp only [hr.2]⟩


/-- Claim C3: for every configured `MaxRetries = N ≥ 0`, when the server
returns 503 on every attempt, `doJSON` sends exactly `N + 1` requests and
then returns the terminal error that wraps the last attempt's parsed API
error together with the total attempt count `N + 1`. -/
theorem doJSON_503_attempt_budget (dec : List Char → Option JVal) (outW : Bool)
    (N : Nat) (ib mb : Int) (env : Nat → Attempt) (bs : Nat → List Char) (ras : Nat → Nat)
    (henv : ∀ i, (env i).outcome = .resp 503 (bs i) (ras i)) :
    (doJSON dec outW (N : Int) ib mb env).requests = N + 1 ∧
    (doJSON dec outW (N : Int) ib mb env).out =
      .exhausted (N + 1) (.wrapAPI (parseAPIError 503 (bs N))) := by
  have hN : normalizeRetries (N : Int) = N := by simp [normalizeRetries]
  have h := doJSONLoop_all503 dec outW env (normalizeBackoff ib mb).2 bs ras henv N 0
    (normalizeBackoff ib mb).1
  unfold doJSON
  rw [hN]
  simpa using h

theorem doJSON_503_attempt_budget_witness :
    (doJSON unmarshalJSON true ((1 : Nat) : Int) 0 0 env503).requests = 1 + 1 ∧
    (doJSON unmarshalJSON true ((1 : Nat) : Int) 0 0 env503).out =
      .exhausted (1 + 1) (.wrapAPI (parseAPIError 503 [])) :=
  doJSON_503_attempt_budget unmarshalJSON true 1 0 0 env503 (fun _ => []) (fun _ => 0)
    (fun _ => rfl)

/-- Claim C5: both executors treat a response as retryable exactly when its
status is 429 or in 500–599 (the branch condition `st = 429 ∨ st / 100 = 5`
is equivalent to that range); for every other non-2xx status the parsed
structured `APIError` is returned immediately after exactly one request,
regardless of `MaxRetries`; and for a retryable status with budget left a
second request is issued. -/
theorem executors_retryable_classification (st : Nat) (body : List Char) (ra j : Nat)
    (cx : Bool) (dec : List Char → Option JVal) (outW : Bool) (maxR ib mb : Int)
    (env : Nat → Attempt) (henv : env 0 = ⟨.resp st body ra, j, cx⟩) (h2 : st / 100 ≠ 2) :
    ((st = 429 ∨ st / 100 = 5) ↔ (st = 429 ∨ (500 ≤ st ∧ st ≤ 599))) ∧
    (¬(st = 429 ∨ st / 100 = 5) →
      doJSON dec outW maxR ib mb env = ⟨.apiError (parseAPIError st body), 1, []⟩ ∧
      doRequest maxR ib mb env = ⟨.apiError (parseAPIError st body), 1, []⟩) ∧
    ((st = 429 ∨ st / 100 = 5) → 1 ≤ normalizeRetries maxR →
      2 ≤ (doJSON dec outW maxR ib mb env).requests ∧
      2 ≤ (doRequest maxR ib mb env).requests) := by
  have ho : (env 0).outcome = .resp st body ra := by rw [henv]
  refine ⟨by omega, ?_, ?_⟩
  · intro hnr
    have hstepJ := doJSONStep_nonretryable dec outW (env 0) (normalizeBackoff ib mb).1
      st body ra ho h2 hnr
    have hstepR := doRequestStep_nonretryable (env 0) (normalizeBackoff ib mb).1
      st body ra ho h2 hnr
    constructor
    · have := doJSONLoop_ret dec outW env (normalizeBackoff ib mb).2 0
        (normalizeBackoff ib mb).1 _ hstepJ (normalizeRetries maxR)
      unfold doJSON
      simpa using this
    · have := doRequestLoop_ret env (normalizeBackoff ib mb).2 0
        (normalizeBackoff ib mb).1 _ hstepR (normalizeRetries maxR)
      unfold doRequest
      simpa using this
  · intro hr hbudget
    obtain ⟨l, hl⟩ : ∃ l, normalizeRetries maxR = l + 1 :=
      ⟨normalizeRetries maxR - 1, by omega⟩
    have hstepJ := doJSONStep_retryable dec outW (env 0) (normalizeBackoff ib mb).1
      st body ra ho h2 hr
    have hstepR := doRequestStep_retryable (env 0) (normalizeBackoff ib mb).1
      st body ra ho h2 hr
    have hJ := doJSONLoop_cont_succ dec outW env (normalizeBackoff ib mb).2 0
      (normalizeBackoff ib mb).1 _ _ hstepJ l
    have hR := doRequestLoop_cont_succ env (normalizeBackoff ib mb).2 0
      (normalizeBackoff ib mb).1 _ _ hstepR l
    have posJ := doJSONLoop_requests_pos dec outW env (normalizeBackoff ib mb).2 1 l
      (nextBackoffDur (if 0 < ra ∧ (normalizeBackoff ib mb).1 < ra then ra
        else (normalizeBackoff ib mb).1) (normalizeBackoff ib mb).2)
    have posR := doRequestLoop_requests_pos env (normalizeBackoff ib mb).2 1 l
      (nextBackoffDur (if 0 < ra ∧ (normalizeBackoff ib mb).1 < ra then ra
        else (normalizeBackoff ib mb).1) (normalizeBackoff ib mb).2)
    constructor
    · unfold doJSON
      dsimp only
      rw [hl]
      simp only [hJ, Nat.zero_add]
      omega
    · unfold doRequest
      dsimp only
      rw [hl]
      simp only [hR, Nat.zero_add]
      omega

theorem executors_retryable_classification_witness :
    ((400 = 429 ∨ 400 / 100 = 5) ↔ (400 = 429 ∨ (500 ≤ 400 ∧ 400 ≤ 599))) ∧
    (¬(400 = 429 ∨ 400 / 100 = 5) →
      doJSON unmarshalJSON true 5 0 0 envBadRequest =
        ⟨.apiError (parseAPIError 400 "\x7b\"message\":\"bad request\"\x7d".data), 1, []⟩ ∧
      doRequest 5 0 0 envBadRequest =
        ⟨.apiError (parseAPIError 400 "\x7b\"message\":\"bad request\"\x7d".data), 1, []⟩) ∧
    ((400 = 429 ∨ 400 / 100 = 5) → 1 ≤ normalizeRetries 5 →
      2 ≤ (doJSON unmarshalJSON true 5 0 0 envBadRequest).requests ∧
      2 ≤ (doRequest 5 0 0 envBadRequest).requests) :=
  executors_retryable_classification 400 "\x7b\"message\":\"bad request\"\x7d".data 0 0
    false unmarshalJSON true 5 0 0 envBadRequest rfl (by norm_num)


/-- Claim C2 (amended): a parsed Retry-After larger than the current
backoff replaces the backoff base before jitter, so the recorded wait is
the jittered Retry-After — at least `min (ra / 2) MaxBackoff` and at most
`min ra MaxBackoff`, not necessarily `≥ ra`; a Retry-After at most the
current backoff leaves the backoff (hence the wait) unchanged. -/
theorem doJSON_retryAfter_floor (st : Nat) (body : List Char) (ra j : Nat) (cx : Bool)
    (dec : List Char → Option JVal) (outW : Bool) (maxR ib mb : Int) (env : Nat → Attempt)
    (henv : env 0 = ⟨.resp st body ra, j, cx⟩)
    (hr : st = 429 ∨ st / 100 = 5)
    (hbudget : 1 ≤ normalizeRetries maxR) :
    (doJSON dec outW maxR ib mb env).waits.head? =
      some (jitterDur (if 0 < ra ∧ (normalizeBackoff ib mb).1 < ra then ra
              else (normalizeBackoff ib mb).1) (normalizeBackoff ib mb).2 j, cx) ∧
    ((normalizeBackoff ib mb).1 < ra →
      (if 0 < ra ∧ (normalizeBackoff ib mb).1 < ra then ra else (normalizeBackoff ib mb).1) = ra ∧
      min (ra / 2) (normalizeBackoff ib mb).2 ≤ jitterDur ra (normalizeBackoff ib mb).2 j ∧
      jitterDur ra (normalizeBackoff ib mb).2 j ≤ min ra (normalizeBackoff ib mb).2) ∧
    (ra ≤ (normalizeBackoff ib mb).1 →
      (if 0 < ra ∧ (normalizeBackoff ib mb).1 < ra then ra else (normalizeBackoff ib mb).1) =
        (normalizeBackoff ib mb).1) := by
  have h2 : st / 100 ≠ 2 := by omega
  have ho : (env 0).outcome = .resp st body ra := by rw [henv]
  obtain ⟨l, hl⟩ : ∃ l, normalizeRetries maxR = l + 1 :=
    ⟨normalizeRetries maxR - 1, by omega⟩
  have hstep := doJSONStep_retryable dec outW (env 0) (normalizeBackoff ib mb).1
    st body ra ho h2 hr
  have hJ := doJSONLoop_cont_succ dec outW env (normalizeBackoff ib mb).2 0
    (normalizeBackoff ib mb).1 _ _ hstep l
  refine ⟨?_, ?_, ?_⟩
  · unfold doJSON
    dsimp only
    rw [hl]
    simp only [hJ]
    simp [henv]
  · intro hlt
    exact ⟨if_pos ⟨by omega, hlt⟩, jitterDur_lower ra (normalizeBackoff ib mb).2 j,
      jitterDur_upper ra (normalizeBackoff ib mb).2 j⟩
  · intro hle
    exact if_neg (by omega)

theorem doJSON_retryAfter_floor_witness :
    ((doJSON unmarshalJSON false 1 0 0 envRetryAfter).waits.head? =
      some (jitterDur (if 0 < 1000000000 ∧ (normalizeBackoff 0 0).1 < 1000000000 then 1000000000
              else (normalizeBackoff 0 0).1) (normalizeBackoff 0 0).2 0, false) ∧
    ((normalizeBackoff 0 0).1 < 1000000000 →
      (if 0 < 1000000000 ∧ (normalizeBackoff 0 0).1 < 1000000000 then 1000000000
        else (normalizeBackoff 0 0).1) = 1000000000 ∧
      min (1000000000 / 2) (normalizeBackoff 0 0).2 ≤
        jitterDur 1000000000 (normalizeBackoff 0 0).2 0 ∧
      jitterDur 1000000000 (normalizeBackoff 0 0).2 0 ≤
        min 1000000000 (normalizeBackoff 0 0).2) ∧
    (1000000000 ≤ (normalizeBackoff 0 0).1 →
      (if 0 < 1000000000 ∧ (normalizeBackoff 0 0).1 < 1000000000 then 1000000000
        else (normalizeBackoff 0 0).1) = (normalizeBackoff 0 0).1)) :=
  doJSON_retryAfter_floor 503 [] 1000000000 0 false unmarshalJSON false 1 0 0
    envRetryAfter rfl (Or.inr rfl) (by decide)

/-- Claim C2 counterexample: with normalized backoff 200ms / max 2s,
jitter random value 0 and a 503 carrying Retry-After 1s, the policy-computed
jittered delay is 100ms (so Retry-After is larger), yet the executor's wait
is exactly 500ms, which is strictly below the Retry-After duration —
refuting "the wait before the next attempt is at least that Retry-After
duration". -/
theorem doJSON_retryAfter_wait_counterexample :
    (doJSON unmarshalJSON false 1 0 0 envRetryAfter).waits = [(500000000, false)] ∧
    jitterDur 200000000 2000000000 0 = 100000000 ∧
    (100000000 : Nat) < 1000000000 ∧ (500000000 : Nat) < 1000000000 :=
  ⟨rfl, rfl, by norm_num, by norm_num⟩

/-- Claim C4 (amended): when cancellation fires during the backoff sleep
(first attempt retryable, every later send failing fast with the context
error), the executor does not unwind: it performs all remaining attempts —
`N + 1` requests in total — and returns the retries-exhausted error
wrapping the (context) transport error; the interrupted sleep is visible
only as the cut-short first wait. -/
theorem doJSON_cancellation_continues (dec : List Char → Option JVal) (outW : Bool)
    (N : Nat) (ib mb : Int) (env : Nat → Attempt) (b0 : List Char) (ra0 j0 : Nat)
    (h0 : env 0 = ⟨.resp 503 b0 ra0, j0, true⟩)
    (hrest : ∀ i, 1 ≤ i → (env i).outcome = .err)
    (hN : 1 ≤ N) :
    (doJSON dec outW (N : Int) ib mb env).requests = N + 1 ∧
    (doJSON dec outW (N : Int) ib mb env).out = .exhausted (N + 1) .transport ∧
    ((doJSON dec outW (N : Int) ib mb env).waits.head?).map Prod.snd = some true := by
  obtain ⟨l, rfl⟩ : ∃ l, N = l + 1 := ⟨N - 1, by omega⟩
  have hN2 : normalizeRetries ((l + 1 : Nat) : Int) = l + 1 := by
    simp [normalizeRetries]
    omega
  have ho : (env 0).outcome = .resp 503 b0 ra0 := by rw [h0]
  have hstep := doJSONStep_retryable dec outW (env 0) (normalizeBackoff ib mb).1
    503 b0 ra0 ho (by norm_num) (by norm_num)
  have hJ := doJSONLoop_cont_succ dec outW env (normalizeBackoff ib mb).2 0
    (normalizeBackoff ib mb).1 _ _ hstep l
  have hrun := doJSONLoop_all_err dec outW env (normalizeBackoff ib mb).2 1 hrest l 1
    (nextBackoffDur (if 0 < ra0 ∧ (normalizeBackoff ib mb).1 < ra0 then ra0
      else (normalizeBackoff ib mb).1) (normalizeBackoff ib mb).2) le_rfl
  unfold doJSON
  dsimp only
  rw [hN2]
  simp only [hJ, Nat.zero_add]
  refine ⟨by rw [hrun.1], ?_, by simp [h0]⟩
  rw [hrun.2]
  have e1 : 1 + l + 1 = l + 1 + 1 := by omega
  rw [e1]

theorem doJSON_cancellation_continues_witness :
    (doJSON unmarshalJSON true ((2 : Nat) : Int) 0 0 envCancelled).requests = 2 + 1 ∧
    (doJSON unmarshalJSON true ((2 : Nat) : Int) 0 0 envCancelled).out =
      .exhausted (2 + 1) .transport ∧
    ((doJSON unmarshalJSON true ((2 : Nat) : Int) 0 0 envCancelled).waits.head?).map
      Prod.snd = some true :=
  doJSON_cancellation_continues unmarshalJSON true 2 0 0 envCancelled [] 0 0 rfl
    (fun i hi => by
      simp only [envCancelled]
      rw [if_neg (by omega)])
    (by norm_num)

/-- Claim C4 counterexample: with `MaxRetries = 2`, a 503 on attempt 0,
cancellation firing during the first sleep and every later send failing
with the context error, the call issues 3 requests and returns the
"failed after 3 attempts" wrapper around the transport error — it neither
unwinds immediately nor avoids the retries-exhausted error, refuting the
claim. -/
theorem doJSON_cancellation_counterexample :
    (doJSON unmarshalJSON true 2 0 0 envCancelled).requests = 3 ∧
    (doJSON unmarshalJSON true 2 0 0 envCancelled).out = .exhausted 3 .transport ∧
    (doJSON unmarshalJSON true 2 0 0 envCancelled).waits =
      [(100000000, true), (200000000, true)] :=
  ⟨rfl, rfl, rfl⟩

/-- Claim C1 (code bug): a JSON decode failure of a 2xx success body is
NOT terminal in `doJSON`.  With `MaxRetries = 2` and every attempt
answering 200 with the undecodable body `x`, the executor sends 3 requests,
sleeps twice, and returns the decode error only inside the
"failed after 3 attempts" wrapper — the claim (and the code's own
documentation) says the decode error is returned immediately after one
request. -/
theorem doJSON_decode_failure_retried :
    doJSON unmarshalJSON true 2 0 0 envDecodeFail =
      ⟨.exhausted 3 (.decodeFail ['x']), 3, [(100000000, false), (200000000, false)]⟩ :=
  rfl


/-- Claim C6: on a 2xx streaming response with body
`\x7b"ok":true,"rows":[\x7b"id":1\x7d,\x7b"id":2\x7d,\x7b"id":3\x7d]\x7d`, successive
`Next` calls decode the three rows in order (each returning `true`), and
the fourth call returns `false` with `Err() = none`, the scanner done, the
body closed, and the closing `]` consumed (only the final brace remains
unread). -/
theorem rowScanner_stream_roundtrip :
    (execSQLStream 3 0 0 envStreamOk).map
      (fun s0 =>
        ((runNext 4 s0).1, (runNext 4 s0).2.err, (runNext 4 s0).2.done,
         (runNext 4 s0).2.closed, (runNext 4 s0).2.rest)) =
    .ok ([(true, some (idRow 1)), (true, some (idRow 2)), (true, some (idRow 3)),
          (false, none)], none, true, true, ['\x7d']) :=
  rfl

/-- Claim C7 counterexample: on the truncated body the scanner yields the
two rows and then returns `false` with `Err() = none` — there is no
non-nil terminal error recorded, refuting the claim. -/
theorem rowScanner_truncated_counterexample :
    (execSQLStream 3 0 0 envStreamTrunc).map (fun s0 => (runNext 3 s0).2.err) = .ok none ∧
    (execSQLStream 3 0 0 envStreamTrunc).map (fun s0 => (runNext 3 s0).1) =
      .ok [(true, some (idRow 1)), (true, some (idRow 2)), (false, none)] :=
  ⟨rfl, rfl⟩

/-- Claim C7 (amended): on the truncated body
`\x7b"ok":true,"rows":[\x7b"id":1\x7d,\x7b"id":2\x7d`, the scanner yields the two rows
and then reports a clean end-of-stream: `false` with `Err() = none`, done
set and the body closed — the error of the final discarded `Token()` call
is lost. -/
theorem rowScanner_truncated_clean_end :
    (execSQLStream 3 0 0 envStreamTrunc).map
      (fun s0 =>
        ((runNext 3 s0).1, (runNext 3 s0).2.err, (runNext 3 s0).2.done,
         (runNext 3 s0).2.closed)) =
    .ok ([(true, some (idRow 1)), (true, some (idRow 2)), (false, none)],
         none, true, true) :=
  rfl

/-- Claim C10: while seeking the rows array, `Next` treats the first
string token equal to `"rows"` — at any depth, key or value — as the rows
field: whenever the token that follows it is not `[` (predicate
`SeekBad`), `Next` records the "unexpected token after rows" terminal
error, closes the body, and returns `false`. -/
theorem rowScanner_rows_token_confusion (s : Scanner) (t : JTok)
    (hdone : s.done = false) (hrows : s.inRows = false)
    (hbad : SeekBad s.rest t) :
    s.next =
      ({ s with
          rest := ([] : List Char)
          lastErr := some (.unexpectedAfterRows t)
          closed := true },
       false, none) := by
  have hseek := seekRows_of_seekBad hbad (s.rest.length + 1) (by omega)
  unfold Scanner.next
  rw [hdone, hrows]
  simp [hseek]

theorem rowScanner_rows_token_confusion_witness :
    mkScanner noteBody = .ok noteScanner ∧
    noteScanner.next =
      ({ noteScanner with
          rest := ([] : List Char)
          lastErr := some (.unexpectedAfterRows (.jstr "rows"))
          closed := true },
       false, none) :=
  ⟨rfl,
   rowScanner_rows_token_confusion noteScanner (.jstr "rows") rfl rfl
     (@SeekBad.step noteScanner.rest (.jstr "note") noteRest1 (.jstr "rows")
       (by decide) (by decide)
       (@SeekBad.found noteRest1 noteRest2 noteRest3 (.jstr "rows")
         (by decide) (by decide) (by decide)))⟩

/-- Claim C8: with page size 2 and a fetch returning 2, 2, then 0 rows,
successive `Next` calls return the two batches and then the none signal,
passing offsets 0, 2, 4 to Browse; a cursor marked done returns the none
signal identically for every fetch function (no Browse call is observable);
and a fetch error propagates with `Offset` and `Done` unchanged. -/
theorem pager_next_pagination :
    (Pager.next browseScenario ⟨2, 0, false⟩ = (⟨2, 2, false⟩, .ok (some [10, 20])) ∧
     Pager.next browseScenario ⟨2, 2, false⟩ = (⟨2, 4, false⟩, .ok (some [30, 40])) ∧
     Pager.next browseScenario ⟨2, 4, false⟩ = (⟨2, 4, true⟩, .ok none)) ∧
    (∀ (ε α : Type) (browse : Int → Int → Except ε (List α)) (p : Pager),
      p.done = true → Pager.next browse p = (p, .ok none)) ∧
    (∀ (ε α : Type) (browse : Int → Int → Except ε (List α)) (p : Pager) (e : ε),
      p.done = false → browse p.limit p.offset = .error e →
      Pager.next browse p = (p, .error e)) := by
  refine ⟨⟨rfl, rfl, rfl⟩, ?_, ?_⟩
  · intro ε α browse p hp
    unfold Pager.next
    rw [hp]
    simp
  · intro ε α browse p e hp hb
    unfold Pager.next
    rw [hp, hb]
    simp

theorem pager_next_pagination_witness :
    Pager.next browseScenario ⟨2, 4, true⟩ = (⟨2, 4, true⟩, .ok none) :=
  pager_next_pagination.2.1 Unit Nat browseScenario ⟨2, 4, true⟩ rfl


/-- Claim C9 (amended): `redactValue v = v` exactly when `v` is the
8-byte mask `********` or an 11-byte value `prefix ++ ellipsis ++ suffix`
with 4-byte prefix and suffix; hence every credential longer than 8 bytes
whose length is not 11 is never passed unredacted, and non-credential
headers pass through `redactHeaders` unchanged. -/
theorem redactValue_leak_characterization :
    (∀ v : List Nat, redactValue v = v ↔
      (v = maskBytes ∨ ∃ a b : List Nat, a.length = 4 ∧ b.length = 4 ∧
        v = a ++ ellipsisBytes ++ b)) ∧
    (∀ v : List Nat, 8 < v.length → v.length ≠ 11 → redactValue v ≠ v) ∧
    (∀ h : List (String × List Nat), ∀ kv ∈ h, eqFold kv.1 "x-api-key" = false →
      kv ∈ redactHeaders h) := by
  have key : ∀ v : List Nat, redactValue v = v ↔
      (v = maskBytes ∨ ∃ a b : List Nat, a.length = 4 ∧ b.length = 4 ∧
        v = a ++ ellipsisBytes ++ b) := by
    intro v
    unfold redactValue
    split
    next hlen =>
      constructor
      · intro hv
        right
        have hlen11 : v.length = 11 := by
          have hlc := congrArg List.length hv
          simp only [List.length_append, List.length_take, List.length_drop,
            ellipsisBytes, List.length_cons, List.length_nil] at hlc
          omega
        refine ⟨v.take 4, v.drop (v.length - 4), ?_, ?_, hv.symm⟩
        · simp [hlen11]
        · simp [hlen11]
      · rintro (hmask | ⟨a, b, ha, hb, rfl⟩)
        · exfalso
          rw [hmask] at hlen
          simp [maskBytes] at hlen
        · have hell : (ellipsisBytes : List Nat).length = 3 := by simp [ellipsisBytes]
          have h1 : (a ++ ellipsisBytes ++ b).take 4 = a := by
            rw [show (4 : Nat) = a.length from ha.symm, List.append_assoc, List.take_left]
          have h2 : (a ++ ellipsisBytes ++ b).drop ((a ++ ellipsisBytes ++ b).length - 4) = b := by
            have hlen2 : (a ++ ellipsisBytes ++ b).length = 11 := by
              simp [ellipsisBytes, ha, hb]
            rw [hlen2]
            rw [show (11 - 4 : Nat) = (a ++ ellipsisBytes).length by simp [ha, hell]]
            exact List.drop_left _ _
          rw [h1, h2]
    next hlen =>
      constructor
      · intro hv
        exact Or.inl hv.symm
      · rintro (rfl | ⟨a, b, ha, hb, rfl⟩)
        · rfl
        · exfalso
          have : (a ++ ellipsisBytes ++ b).length = 11 := by simp [ellipsisBytes, ha, hb]
          omega
  refine ⟨key, ?_, ?_⟩
  · intro v h8 h11 hv
    rcases (key v).mp hv with hmask | ⟨a, b, ha, hb, rfl⟩
    · rw [hmask] at h8
      simp [maskBytes] at h8
    · apply h11
      simp [ellipsisBytes, ha, hb]
  · intro h kv hkv hfold
    unfold redactHeaders
    refine List.mem_map.mpr ⟨kv, hkv, ?_⟩
    simp [hfold]

theorem redactValue_leak_characterization_witness :
    redactValue (List.replicate 9 97) ≠ List.replicate 9 97 :=
  redactValue_leak_characterization.2.1 (List.replicate 9 97) (by decide) (by decide)

/-- Claim C9 counterexample: the 11-byte credential `abcd…efgh` (whose
middle three bytes are the UTF-8 ellipsis) is of non-trivial length, yet
`redactHeaders` hands the Logger hook exactly the real credential value,
refuting "never equal to the real credential value". -/
theorem redactHeaders_leak_counterexample :
    redactHeaders [("X-Api-Key", leakKey)] = [("X-Api-Key", leakKey)] ∧
    8 < leakKey.length :=
  ⟨by decide, by decide⟩

end Warlot
